import Mathlib

/-!
Shallow embedding of `script4.py` (class `ProjectContextGenerator`): a
single-shot directory scanner that classifies files as text/binary, applies
name/directory ignore rules and a cumulative byte budget, renders an
annotated tree, and assembles a report.

Modelling conventions:
* A path is its list of components (`pathlib.PurePath.parts` of a path
  relative to the scan root `Path "."`); the root itself is the empty list,
  matching `Path(".").parts == ()`, `Path("a.txt").parent == Path(".")` and
  `(Path(".") / "x") == Path("x")`.
* The filesystem snapshot seen by one scan is static. Each discovered
  regular file is a `SrcFile` carrying the environment facts the program
  queries for it: its byte size (`stat().st_size`), its lower-cased
  extension (`Path.suffix.lower()`), the MIME type reported by
  `mimetypes.guess_type` (`none` when no type is found; `guess_type` never
  returns an empty string), and `read`: `none` when opening/reading the
  file raises, otherwise the first (at most 1024) raw bytes together with
  the full text decoded with `errors="ignore"`. In a static snapshot the
  sniffing read and the later content read succeed or fail together.
* Python `set` objects are modelled as `List String`; only membership is
  ever used, so duplicates are irrelevant.
* Machine integers: all sizes and totals are `Nat` (Python ints are
  unbounded; `st_size` is nonnegative).
-/

/-- Python code-point comparison of strings, strict part: `a < b` on
`str` compares the character sequences lexicographically. -/
def charListLt : List Char → List Char → Bool
  | [], [] => false
  | [], _ :: _ => true
  | _ :: _, [] => false
  | c :: cs, d :: ds => if c < d then true else if d < c then false else charListLt cs ds

/-- Strict `<` on strings as Python compares `str` values. -/
def strLt (a b : String) : Bool :=
  charListLt a.data b.data

/-- Non-strict code-point comparison of strings (Python `a <= b`). -/
def charListLe : List Char → List Char → Bool
  | [], _ => true
  | _ :: _, [] => false
  | c :: cs, d :: ds => if c < d then true else if d < c then false else charListLe cs ds

/-- Non-strict `<=` on strings as Python compares `str` values. -/
def strLe (a b : String) : Bool :=
  charListLe a.data b.data

/-- Python tuple comparison on `Path.parts`: lexicographic over the
component strings.  This is the sort key used both by
`sorted(self.file_info.keys(), key=lambda p: p.parts)` and by
`all_files.sort()` (Path ordering compares the component tuples). -/
def partsLe : List String → List String → Bool
  | [], _ => true
  | _ :: _, [] => false
  | a :: as, b :: bs => if strLt a b then true else if strLt b a then false else partsLe as bs

/-- Insert `x` after every element `y` of an ascending list with `le y x`;
the helper for a stable ascending sort. -/
def insertOrdered (le : α → α → Bool) (x : α) : List α → List α
  | [] => [x]
  | y :: ys => if le y x then y :: insertOrdered le x ys else x :: y :: ys

/-- Stable ascending sort (the semantics of Python `list.sort`/`sorted`
for a total preorder `le`): elements comparing equal keep their original
relative order. -/
def pySort (le : α → α → Bool) (l : List α) : List α :=
  l.foldl (fun acc x => insertOrdered le x acc) []

/-- `Path.name`: the final path component. -/
def pathName (p : List String) : String :=
  p.getLastD ""

/-- `Path.parent` relative to the scan root: drop the final component
(`Path("a.txt").parent == Path(".")` is the empty list here). -/
def parentPath (p : List String) : List String :=
  p.dropLast

/-- `f"{path}"`: the POSIX string form of a relative path. -/
def pathStr (p : List String) : String :=
  String.intercalate "/" p

/-- One discovered regular file together with the environment facts the
program queries about it (see the module docstring). -/
structure SrcFile where
  path : List String
  size : Nat
  suffixLower : String
  mime : Option String
  read : Option (List Nat × String)
deriving DecidableEq

/-- The per-file verdict record stored in `self.file_info[path]`. -/
structure FileRecord where
  path : List String
  included : Bool
  reason : String
  size : Nat
deriving DecidableEq

/-- The constructed `ProjectContextGenerator` configuration (immutable
after `__init__`). -/
structure Config where
  output_file : String
  max_total_combined_size : Nat
  ignore_files : List String
  ignore_dirs : List String
  verbose : Bool
deriving DecidableEq

/-- The built-in default ignored-directory names (`__init__`). -/
def default_ignore_dirs : List String :=
  [".git", "node_modules", "dist", "build", ".next", ".cache", ".venv",
   "build_backup", "build_new", "dataconnect-generated", "fav", "public"]

/-- Python `xs or default` for an `Optional[List[str]]` argument: both
`None` and the empty list are falsy and select the default. -/
def listOrElse (x : Option (List String)) (d : List String) : List String :=
  match x with
  | none => d
  | some [] => d
  | some l => l

/-- `ProjectContextGenerator.__init__`: build the configuration.
`self_script_name` is `Path(__file__).name` when `__file__` is defined and
`""` otherwise; a nonempty name is added to the ignored files
(`if self_script_name:`), and the output file name is always added. -/
def initConfig (output_file : String) (max_total_combined_size : Nat)
    (ignore_files : Option (List String)) (ignore_dirs : Option (List String))
    (verbose : Bool) (self_script_name : String) : Config :=
  let base := listOrElse ignore_files []
  let withOutput := output_file :: base
  let files := if self_script_name ≠ "" then self_script_name :: withOutput else withOutput
  { output_file := output_file
    max_total_combined_size := max_total_combined_size
    ignore_files := files
    ignore_dirs := listOrElse ignore_dirs default_ignore_dirs
    verbose := verbose }

/-- `should_ignore`: the file's base name is an ignored file name, or any
component of the path (`file_path.parts`) is an ignored directory name. -/
def should_ignore (cfg : Config) (file_path : List String) : Bool :=
  if pathName file_path ∈ cfg.ignore_files then true
  else if file_path.any (fun part => decide (part ∈ cfg.ignore_dirs)) then true
  else false

/-- Modelled from the words of claim C6 (the spec's §4.2 reading): true iff
the base name is an ignored file name or some ANCESTOR DIRECTORY name of
the path — a component strictly before the final one — is an ignored
directory name.  Compared against `should_ignore`, which checks every
component including the base name itself. -/
def shouldIgnoreClaim (cfg : Config) (file_path : List String) : Bool :=
  if pathName file_path ∈ cfg.ignore_files then true
  else if (parentPath file_path).any (fun part => decide (part ∈ cfg.ignore_dirs)) then true
  else false

/-- The fixed binary-extension set of `is_text_file`. -/
def binary_exts : List String :=
  [".png", ".jpg", ".jpeg", ".gif", ".ico", ".svg",
   ".woff", ".woff2", ".ttf", ".eot", ".otf",
   ".mp3", ".mp4", ".webm", ".ogg", ".pdf",
   ".zip", ".gz", ".rar", ".7z"]

/-- `_binary_sniff`: true when the file looks binary.  An unreadable file
(`read = none`, the `except` branch) is binary.  Otherwise the first chunk
is binary when it contains a null byte, or when it is nonempty and the
fraction of bytes above 127 exceeds 0.3; `non_ascii / len > 0.3` on Python
floats agrees with the exact rational comparison `10 * non_ascii > 3 * len`
for every chunk of at most 1024 bytes (distinct fractions with denominator
at most 1024 are farther apart than double rounding error, and 3/10 itself
rounds to the same double as the literal `0.3`). -/
def binary_sniff (readResult : Option (List Nat × String)) : Bool :=
  match readResult with
  | some (chunk, _) =>
    if chunk.contains 0 then true
    else if 0 < chunk.length ∧ 3 * chunk.length < 10 * (chunk.filter (fun b => 127 < b)).length then
      true
    else false
  | none => true

/-- `is_text_file`: extension blacklist, then MIME lookup, then byte
sniffing.  The inner `return False if not mime_type.startswith("text")
else True` of the source is reproduced verbatim (its `else True` arm is
dead: it sits under the guard that already established the type does not
start with `text`). -/
def is_text_file (f : SrcFile) : Bool :=
  if f.suffixLower ∈ binary_exts then false
  else
    match f.mime with
    | some mime_type =>
      if !(mime_type.startsWith "text") then
        if mime_type = "application/octet-stream" then !(binary_sniff f.read)
        else if !(mime_type.startsWith "text") then false else true
      else !(binary_sniff f.read)
    | none => !(binary_sniff f.read)

/-- Modelled from the words of claim C7: false when the case-insensitive
extension is in the binary-extension set; false when a looked-up MIME type
neither starts with `text` nor equals `application/octet-stream`;
otherwise byte-sniff — binary when the file cannot be opened or read,
when a null byte appears, or when the fraction of bytes above 127 strictly
exceeds 0.30, text otherwise. -/
def is_text_file_spec (f : SrcFile) : Bool :=
  if f.suffixLower ∈ binary_exts then false
  else if (match f.mime with
           | some m => !(m.startsWith "text") && !(m == "application/octet-stream")
           | none => false) then false
  else
    match f.read with
    | none => false
    | some (chunk, _) =>
      if chunk.contains 0 then false
      else if 0 < chunk.length ∧ 3 * chunk.length < 10 * (chunk.filter (fun b => 127 < b)).length then
        false
      else true

/-- Reason string of decision branch 1. -/
def reason_ignored : String := "Excluded: ignored by name/dir"

/-- Reason string of decision branch 2. -/
def reason_binary : String := "Excluded: binary or non-text"

/-- Reason string of decision branch 3 (the f-string naming the limit). -/
def reason_budget (limit : Nat) : String :=
  "Excluded: adding this would exceed " ++ toString limit ++ " bytes limit"

/-- Reason string of decision branch 4. -/
def reason_included : String := "Included"

/-- `decide_inclusion` for a single file, with the running total
(`self.total_included_size`) threaded explicitly: returns the stored
`FileRecord` and the new running total. -/
def decide_inclusion (cfg : Config) (f : SrcFile) (total : Nat) : FileRecord × Nat :=
  if should_ignore cfg f.path then
    ({ path := f.path, included := false, reason := reason_ignored, size := f.size }, total)
  else if !(is_text_file f) then
    ({ path := f.path, included := false, reason := reason_binary, size := f.size }, total)
  else if total + f.size > cfg.max_total_combined_size then
    ({ path := f.path, included := false,
       reason := reason_budget cfg.max_total_combined_size, size := f.size }, total)
  else
    ({ path := f.path, included := true, reason := reason_included, size := f.size },
     total + f.size)

/-- The decision pass of `generate_context_file` step 2: run
`decide_inclusion` over the files in order, pairing every file with its
record (`self.file_info` is keyed by the path, and `rglob` never yields
the same path twice, so the dict is exactly this pairing). -/
def runDecisions (cfg : Config) : List SrcFile → Nat → List (SrcFile × FileRecord) × Nat
  | [], total => ([], total)
  | f :: fs, total =>
    let step := decide_inclusion cfg f total
    let rest := runDecisions cfg fs step.2
    ((f, step.1) :: rest.1, rest.2)

/-- `gather_files`: the recursively collected regular files, sorted by
path (Path ordering = component-tuple ordering). -/
def sortPaths (files : List SrcFile) : List SrcFile :=
  pySort (fun a b => partsLe a.path b.path) files

/-- Sum of `size` over the records with `included == true`. -/
def includedSizeSum (records : List FileRecord) : Nat :=
  ((records.filter (fun r => r.included)).map (fun r => r.size)).sum

/-- The status suffix printed on a file's tree line. -/
def status_str (r : FileRecord) : String :=
  if r.included then "[Included]" else "[" ++ r.reason ++ "]"

/-- The bucket `dir_map[rel_dir]` of `build_project_tree`: the records
whose parent directory is `rel_dir`, in sorted-by-parts insertion order,
as the appended tuples `(path.name, path.is_dir(), path)`.  Every key of
`self.file_info` is a regular file kept by the `is_file()` filter of
`gather_files`, so `path.is_dir()` is `false` for each entry of the
static snapshot. -/
def childrenOf (allRecords : List FileRecord) (rel_dir : List String) :
    List (String × Bool × FileRecord) :=
  (allRecords.filter (fun r => parentPath r.path == rel_dir)).map
    (fun r => (pathName r.path, false, r))

/-- An upper bound on the component count of any recorded path, used as
recursion fuel for the tree printer. -/
def maxPathLen (records : List FileRecord) : Nat :=
  records.foldl (fun m r => max m r.path.length) 0

/-- `_print_tree_recursive`.  The Python recursion is gated on
`rel_dir in dir_map`, whose keys are parent paths of recorded files, so
its depth is bounded by the longest recorded path; the `fuel` argument
carries that bound (it is never exhausted when called with
`maxPathLen + 1` from `build_tree_lines`).  A `[DIR]` entry prints its
line and recurses depth-first; a file entry prints one line with its
status suffix.  Entries are stably sorted by name. -/
def print_tree_recursive (allRecords : List FileRecord) :
    Nat → List String → Nat → List String
  | 0, _, _ => []
  | Nat.succ fuel, rel_dir, level =>
    let entries := childrenOf allRecords rel_dir
    if entries.isEmpty then []
    else
      (pySort (fun a b => strLe a.1 b.1) entries).foldr
        (fun e acc =>
          (if e.2.1 then
            (String.join (List.replicate level "   ") ++ e.1 ++ "/ [DIR]") ::
              print_tree_recursive allRecords fuel (rel_dir ++ [e.1]) (level + 1)
          else
            [String.join (List.replicate level "   ") ++ e.1 ++ " " ++ status_str e.2.2])
          ++ acc) []

/-- `build_project_tree` as its list of lines: the root directory's own
name with a trailing slash, then the recursive print starting from the
root (`Path "."`, the empty relative path) at level 1. -/
def build_tree_lines (rootName : String) (records : List FileRecord) : List String :=
  let allSorted := pySort (fun a b => partsLe a.path b.path) records
  (rootName ++ "/") :: print_tree_recursive allSorted (maxPathLen records + 1) [] 1

/-- The fixed introductory paragraph of the report. -/
def introduction : String :=
  "# Introduction\n\n"
  ++ "This file was automatically generated by the ProjectContextGenerator script.\n"
  ++ "It scans the current codebase, excludes certain files/directories (e.g. binary files, large files, or those explicitly ignored),\n"
  ++ "and includes the content of text-based files that fit within a specified size limit.\n\n"
  ++ "Below is a tree view of all files (showing included or excluded status), followed by the content of included files.\n"
  ++ "Finally, a summary provides the total number of files included/excluded and the total size of included content.\n\n"

/-- The 40-character separator line under each content-block header. -/
def separator_line : String :=
  String.join (List.replicate 40 "-")

/-- The content block appended for one file during step 4 of
`generate_context_file`: present only when the record is included and the
text read succeeds (the `except` branch logs and omits the block); the
block is `// File: <path>`, the separator line, the raw text, and two
trailing newlines. -/
def contentBlockFor (f : SrcFile) (r : FileRecord) : Option String :=
  if r.included then
    match f.read with
    | some (_, text) =>
      some ("// File: " ++ pathStr f.path ++ "\n" ++ separator_line ++ "\n" ++ text ++ "\n\n")
    | none => none
  else none

/-- All content blocks of a scan in file order, each keyed by the path of
the file it was read from (the loop variable of step 4). -/
def includedBlocks (pairs : List (SrcFile × FileRecord)) : List (List String × String) :=
  pairs.filterMap (fun q => (contentBlockFor q.1 q.2).map (fun b => (q.1.path, b)))

/-- `generate_context_file`: the full report text written to the output
file.  `rootName` is `base_path.resolve().name`, the scanned directory's
own name; `files` is the filesystem snapshot (every discovered regular
file). -/
def generate_context_file (cfg : Config) (rootName : String) (files : List SrcFile) : String :=
  let all_files := sortPaths files
  let res := runDecisions cfg all_files 0
  let records := res.1.map (fun q => q.2)
  let tree_text := String.intercalate "\n" (build_tree_lines rootName records)
  let content_section :=
    "\n\n---\n## Included Files Content\n\n" ++ String.join ((includedBlocks res.1).map (fun b => b.2))
  let excluded_count := (records.filter (fun r => !r.included)).length
  let summary :=
    "\n\n---\n## Summary\n\n"
    ++ "Total included files: " ++ toString (records.length - excluded_count) ++ "\n"
    ++ "Total excluded files: " ++ toString excluded_count ++ "\n"
    ++ "Total included content size: " ++ toString res.2 ++ " bytes\n"
  introduction ++ tree_text ++ content_section ++ summary

/-- Example configuration: the defaults of the `__main__` invocation with
no extra ignore lists. -/
def exCfg : Config :=
  initConfig "project_context.txt" 1048576 none none false "script4.py"

/-- Example discovered file: a small readable text file at the root. -/
def exFileA : SrcFile :=
  { path := ["a.txt"], size := 2, suffixLower := ".txt", mime := none,
    read := some ([104, 105], "hi") }

/-- The record `decide_inclusion` produces for `exFileA` under `exCfg`
from a zero running total. -/
def exRecA : FileRecord :=
  { path := ["a.txt"], included := true, reason := "Included", size := 2 }

/-- Example record of an included file at the root (for the tree). -/
def exRecRoot : FileRecord :=
  { path := ["b.txt"], included := true, reason := "Included", size := 1 }

/-- Example record of an included file inside the subdirectory `sub`. -/
def exRecSub : FileRecord :=
  { path := ["sub", "a.txt"], included := true, reason := "Included", size := 1 }

/-- The new running total after one decision is the old one, plus the
file's size exactly when the verdict was an inclusion. -/
lemma decide_total_eq (cfg : Config) (f : SrcFile) (total : Nat) :
    (decide_inclusion cfg f total).2 =
      if (decide_inclusion cfg f total).1.included = true then total + f.size else total := by
  unfold decide_inclusion
  split
  · simp
  · split
    · simp
    · split
      · simp
      · simp

/-- One decision step never pushes a running total past the budget. -/
lemma decide_total_le (cfg : Config) (f : SrcFile) (total : Nat)
    (h : total ≤ cfg.max_total_combined_size) :
    (decide_inclusion cfg f total).2 ≤ cfg.max_total_combined_size := by
  unfold decide_inclusion
  split
  · exact h
  · split
    · exact h
    · split
      · exact h
      · rename_i hnot
        simp only
        omega

/-- The record stored by any decision branch carries the file's size. -/
lemma decide_size_eq (cfg : Config) (f : SrcFile) (total : Nat) :
    (decide_inclusion cfg f total).1.size = f.size := by
  unfold decide_inclusion
  split
  · rfl
  · split
    · rfl
    · split
      · rfl
      · rfl

/-- An included verdict can only arise from the fourth branch, so the file
passed the text check. -/
lemma included_is_text (cfg : Config) (f : SrcFile) (total : Nat)
    (h : (decide_inclusion cfg f total).1.included = true) : is_text_file f = true := by
  by_cases htxt : is_text_file f = true
  · exact htxt
  · exfalso
    have htxt' : is_text_file f = false := by
      revert htxt; cases is_text_file f <;> simp
    unfold decide_inclusion at h
    by_cases hig : should_ignore cfg f.path = true
    · simp [hig] at h
    · have hig' : should_ignore cfg f.path = false := by
        revert hig; cases should_ignore cfg f.path <;> simp
      simp [hig', htxt'] at h

/-- Every branch of `is_text_file` that returns true passes through
`not _binary_sniff`, so the file was successfully opened and read. -/
lemma is_text_read_some (f : SrcFile) (h : is_text_file f = true) :
    ∃ chunk text, f.read = some (chunk, text) := by
  cases hread : f.read with
  | some p =>
    obtain ⟨c, s⟩ := p
    exact ⟨c, s, rfl⟩
  | none =>
    exfalso
    unfold is_text_file at h
    rw [hread] at h
    cases hm : f.mime with
    | none =>
      rw [hm] at h
      by_cases hext : f.suffixLower ∈ binary_exts
      · simp [hext] at h
      · simp [hext, binary_sniff] at h
    | some mt =>
      rw [hm] at h
      by_cases hext : f.suffixLower ∈ binary_exts
      · simp [hext] at h
      · by_cases hs : mt.startsWith "text" = true
        · simp [hext, hs, binary_sniff] at h
        · have hs' : mt.startsWith "text" = false := by
            revert hs; cases mt.startsWith "text" <;> simp
          by_cases ho : mt = "application/octet-stream"
          · simp [hext, hs', ho, binary_sniff] at h
          · simp [hext, hs', ho] at h

/-- Sum over included records, cons form. -/
lemma includedSizeSum_cons (r : FileRecord) (rs : List FileRecord) :
    includedSizeSum (r :: rs) =
      (if r.included = true then r.size else 0) + includedSizeSum rs := by
  by_cases h : r.included = true
  · simp [includedSizeSum, List.filter_cons, h]
  · simp [includedSizeSum, List.filter_cons, h]

/-- The running total after any decision run equals the starting total
plus the sizes of the records it marked included. -/
lemma runDecisions_total (cfg : Config) (fs : List SrcFile) :
    ∀ total, (runDecisions cfg fs total).2 =
      total + includedSizeSum ((runDecisions cfg fs total).1.map (fun q => q.2)) := by
  induction fs with
  | nil => intro total; simp [runDecisions, includedSizeSum]
  | cons f fs ih =>
    intro total
    simp only [runDecisions, List.map_cons, includedSizeSum_cons]
    rw [ih ((decide_inclusion cfg f total).2), decide_size_eq]
    have hd := decide_total_eq cfg f total
    by_cases hinc : (decide_inclusion cfg f total).1.included = true
    · rw [if_pos hinc] at hd
      rw [if_pos hinc, hd]
      omega
    · rw [if_neg hinc] at hd
      rw [if_neg hinc, hd]
      omega

/-- A decision run started at or below the budget stays at or below it. -/
lemma runDecisions_le (cfg : Config) (fs : List SrcFile) :
    ∀ total, total ≤ cfg.max_total_combined_size →
      (runDecisions cfg fs total).2 ≤ cfg.max_total_combined_size := by
  induction fs with
  | nil => intro total h; simpa [runDecisions] using h
  | cons f fs ih =>
    intro total h
    simp only [runDecisions]
    exact ih _ (decide_total_le cfg f total h)

/-- Claim C3: for every scan and every prefix of the decision sequence,
the sum of `size` over the records marked included stays within the
configured byte budget; and the final running total — the number printed
as `Total included content size` in the summary (`generate_context_file`
interpolates `(runDecisions ...).2` there) — equals that sum over the
whole scan. -/
theorem scan_budget_invariant (cfg : Config) (files : List SrcFile) :
    (∀ n, includedSizeSum
        ((runDecisions cfg ((sortPaths files).take n) 0).1.map (fun q => q.2))
      ≤ cfg.max_total_combined_size)
  ∧ (runDecisions cfg (sortPaths files) 0).2
      = includedSizeSum ((runDecisions cfg (sortPaths files) 0).1.map (fun q => q.2)) := by
  constructor
  · intro n
    have h1 := runDecisions_total cfg ((sortPaths files).take n) 0
    have h2 := runDecisions_le cfg ((sortPaths files).take n) 0 (Nat.zero_le _)
    omega
  · have h1 := runDecisions_total cfg (sortPaths files) 0
    omega

/-- Claim C4: the inclusion decision evaluates its four branches in the
fixed precedence ignore-rules, non-text, budget-overflow, include.  The
four listed guard combinations are pairwise contradictory and exhaustive,
so exactly one branch produces the verdict; each disjunct records the
branch's reason string, that the running total is unchanged on the three
excluded verdicts, and that it grows by exactly the file's size on the
included verdict. -/
theorem decide_inclusion_four_branches (cfg : Config) (f : SrcFile) (total : Nat) :
    (should_ignore cfg f.path = true ∧
       (decide_inclusion cfg f total).1.included = false ∧
       (decide_inclusion cfg f total).1.reason = reason_ignored ∧
       (decide_inclusion cfg f total).2 = total)
  ∨ (should_ignore cfg f.path = false ∧ is_text_file f = false ∧
       (decide_inclusion cfg f total).1.included = false ∧
       (decide_inclusion cfg f total).1.reason = reason_binary ∧
       (decide_inclusion cfg f total).2 = total)
  ∨ (should_ignore cfg f.path = false ∧ is_text_file f = true ∧
       cfg.max_total_combined_size < total + f.size ∧
       (decide_inclusion cfg f total).1.included = false ∧
       (decide_inclusion cfg f total).1.reason = reason_budget cfg.max_total_combined_size ∧
       (decide_inclusion cfg f total).2 = total)
  ∨ (should_ignore cfg f.path = false ∧ is_text_file f = true ∧
       total + f.size ≤ cfg.max_total_combined_size ∧
       (decide_inclusion cfg f total).1.included = true ∧
       (decide_inclusion cfg f total).1.reason = reason_included ∧
       (decide_inclusion cfg f total).2 = total + f.size) := by
  by_cases h1 : should_ignore cfg f.path = true
  · left
    refine ⟨h1, ?_, ?_, ?_⟩ <;> simp [decide_inclusion, h1]
  · have h1f : should_ignore cfg f.path = false := by
      revert h1; cases should_ignore cfg f.path <;> simp
    right
    by_cases h2 : is_text_file f = true
    · right
      by_cases h3 : total + f.size ≤ cfg.max_total_combined_size
      · right
        have h3n : ¬ (total + f.size > cfg.max_total_combined_size) := by omega
        refine ⟨h1f, h2, h3, ?_, ?_, ?_⟩ <;> simp [decide_inclusion, h1f, h2, h3n]
      · left
        have h3y : total + f.size > cfg.max_total_combined_size := by omega
        refine ⟨h1f, h2, by omega, ?_, ?_, ?_⟩ <;> simp [decide_inclusion, h1f, h2, h3y]
    · left
      have h2f : is_text_file f = false := by
        revert h2; cases is_text_file f <;> simp
      refine ⟨h1f, h2f, ?_, ?_, ?_⟩ <;> simp [decide_inclusion, h1f, h2f]

/-- Claim C5: a file that passes the ignore and text checks and whose size
lands exactly on the remaining budget is included — the budget test
rejects only on strict overflow — and the new running total is exactly
the budget. -/
theorem exact_budget_fit_included (cfg : Config) (f : SrcFile) (total : Nat)
    (hig : should_ignore cfg f.path = false) (htxt : is_text_file f = true)
    (hfit : total + f.size = cfg.max_total_combined_size) :
    (decide_inclusion cfg f total).1.included = true ∧
    (decide_inclusion cfg f total).2 = cfg.max_total_combined_size := by
  have hnot : ¬ (total + f.size > cfg.max_total_combined_size) := by omega
  constructor <;> simp [decide_inclusion, hig, htxt, hnot, hfit]

/-- Example configuration with a 10-byte budget and no ignore rules. -/
def cfgTen : Config :=
  { output_file := "out.txt", max_total_combined_size := 10,
    ignore_files := [], ignore_dirs := [], verbose := false }

/-- Example 10-byte readable text file. -/
def exFileTen : SrcFile :=
  { path := ["a.txt"], size := 10, suffixLower := ".txt", mime := none,
    read := some ([104, 105], "hi") }

/-- Witness for `exact_budget_fit_included`: a 10-byte text file against a
10-byte budget with a zero running total is included. -/
theorem exact_budget_fit_included_witness :
    (decide_inclusion cfgTen exFileTen 0).1.included = true :=
  (exact_budget_fit_included cfgTen exFileTen 0 (by decide) (by decide) (by decide)).1

/-- `not _binary_sniff` rewritten as the sniffing clause of the claim's
description of the classifier. -/
lemma sniff_cases (readResult : Option (List Nat × String)) :
    (!(binary_sniff readResult)) =
      (match readResult with
       | none => false
       | some (chunk, _) =>
         if chunk.contains 0 then false
         else if 0 < chunk.length ∧
             3 * chunk.length < 10 * (chunk.filter (fun b => 127 < b)).length then false
         else true) := by
  cases readResult with
  | none => simp [binary_sniff]
  | some p =>
    obtain ⟨chunk, s⟩ := p
    by_cases h0 : chunk.contains 0 = true
    · simp [binary_sniff, h0]
    · have h0' : chunk.contains 0 = false := by
        revert h0; cases chunk.contains 0 <;> simp
      by_cases h1 : 0 < chunk.length ∧
          3 * chunk.length < 10 * (chunk.filter (fun b => 127 < b)).length
      · simp [binary_sniff, h0', h1]
      · simp [binary_sniff, h0', h1]

/-- Claim C7: the text classifier behaves exactly as described — it is a
total function (the source's `except` branch is the `read = none` case,
so no exception escapes), it rejects the fixed binary extensions, rejects
a looked-up MIME type that neither starts with `text` nor equals
`application/octet-stream`, and otherwise byte-sniffs: binary on an
unreadable file, a null byte, or a fraction of bytes above 127 strictly
exceeding 0.30, text otherwise.  Stated as equality with the spec-side
definition `is_text_file_spec` written from the claim's words. -/
theorem is_text_file_matches_spec (f : SrcFile) :
    is_text_file f = is_text_file_spec f := by
  unfold is_text_file is_text_file_spec
  by_cases hext : f.suffixLower ∈ binary_exts
  · simp [hext]
  · cases hm : f.mime with
    | none => simp [hext, sniff_cases]
    | some mt =>
      by_cases hs : mt.startsWith "text" = true
      · simp [hext, hs, sniff_cases]
      · have hs' : mt.startsWith "text" = false := by
          revert hs; cases mt.startsWith "text" <;> simp
        by_cases ho : mt = "application/octet-stream"
        · simp [hext, hs', ho, sniff_cases]
        · simp [hext, hs', ho]

/-- Example configuration for the `should_ignore` counterexample: built by
the constructor with `.git` as the only configured ignored directory. -/
def cfgGit : Config :=
  initConfig "out.txt" 100 none (some [".git"]) false "gen.py"

/-- Counterexample to claim C6 as stated: for the path consisting of the
single component `.git` — a FILE named `.git` at the root — the code
returns true (it checks every component of `file_path.parts`, including
the base name, against the ignored-directory set), while the claim's
predicate (base name among ignored file names, or an ancestor directory
name among ignored directory names) is false: the base name `.git` is not
an ignored file name and the path has no ancestor directories. -/
theorem should_ignore_counterexample :
    should_ignore cfgGit [".git"] = true ∧ shouldIgnoreClaim cfgGit [".git"] = false := by
  decide

/-- Claim C6 as amended: `should_ignore` is a pure predicate of the
configuration sets and the path, true iff the base name is an ignored
file name or ANY component of the path — including the final component,
the base name itself — is an ignored directory name; on every path
matching neither condition it is false. -/
theorem should_ignore_iff (cfg : Config) (p : List String) :
    should_ignore cfg p = true ↔
      (pathName p ∈ cfg.ignore_files ∨ ∃ part ∈ p, part ∈ cfg.ignore_dirs) := by
  unfold should_ignore
  by_cases h1 : pathName p ∈ cfg.ignore_files
  · simp [h1]
  · simp [h1, List.any_eq_true]

/-- Claim C10: passing an empty list (as opposed to `None`) for the
ignored-directory names silently selects the built-in default set —
`ignore_dirs or [...]` treats the empty list as falsy — and consequently
no constructor argument at all can produce an empty ignored-directory
set. -/
theorem empty_ignore_dirs_falls_back :
    (∀ out cap igf vb sn,
        (initConfig out cap igf (some []) vb sn).ignore_dirs = default_ignore_dirs)
  ∧ (∀ out cap igf igd vb sn,
        (initConfig out cap igf igd vb sn).ignore_dirs ≠ []) := by
  constructor
  · intro out cap igf vb sn
    rfl
  · intro out cap igf igd vb sn h
    cases igd with
    | none => simp [initConfig, listOrElse, default_ignore_dirs] at h
    | some l =>
      cases l with
      | nil => simp [initConfig, listOrElse, default_ignore_dirs] at h
      | cons x xs => simp [initConfig, listOrElse] at h

/-- Claim C8: the scan is deterministic — the report text is a pure
function of the configuration, the root directory name, and the
filesystem snapshot, so two runs over an unmodified tree with identical
configuration produce byte-identical output.  The embedding makes the
absence of other inputs visible: `generate_context_file` consults no
clock, randomness, or state surviving from a previous run (each run
starts from an empty record table and a zero running total). -/
theorem generate_deterministic (cfg1 cfg2 : Config) (root1 root2 : String)
    (files1 files2 : List SrcFile)
    (hc : cfg1 = cfg2) (hr : root1 = root2) (hf : files1 = files2) :
    generate_context_file cfg1 root1 files1 = generate_context_file cfg2 root2 files2 := by
  rw [hc, hr, hf]

/-- Witness for `generate_deterministic`: two runs on the example
snapshot. -/
theorem generate_deterministic_witness :
    generate_context_file exCfg "root" [exFileA] = generate_context_file exCfg "root" [exFileA] :=
  generate_deterministic exCfg exCfg "root" "root" [exFileA] [exFileA] rfl rfl rfl

/-- Claim C1 fails on the code (code bug): a scan whose records are an
included root-level file `b.txt` and an included file `sub/a.txt` renders
a tree consisting only of the root line and the root-level file's line.
The subdirectory file gets no line and no `sub/ [DIR]` line appears:
`dir_map`'s entries are always regular files (`path.is_dir()` is false
for every `file_info` key), so `_print_tree_recursive` never recurses and
only the bucket of the root directory is ever printed, contradicting the
function's own docstring ("listing all files"). -/
theorem tree_drops_subdirectory_files :
    build_tree_lines "root" [exRecRoot, exRecSub] = ["root/", "   b.txt [Included]"] := by
  decide

/-- Claim C9: after construction the ignored-file-name set contains both
the configured output path and the (nonempty) script name, so any
discovered file whose base name equals either one is excluded by branch 1
with reason `Excluded: ignored by name/dir` — and in particular such a
file contributes no content block, so the report file's own content never
appears inside the generated report. -/
theorem output_and_script_ignored (out : String) (cap : Nat)
    (igf igd : Option (List String)) (vb : Bool) (sn : String) (hsn : sn ≠ "")
    (f : SrcFile) (t : Nat)
    (hname : pathName f.path = out ∨ pathName f.path = sn) :
    out ∈ (initConfig out cap igf igd vb sn).ignore_files ∧
    sn ∈ (initConfig out cap igf igd vb sn).ignore_files ∧
    (decide_inclusion (initConfig out cap igf igd vb sn) f t).1.included = false ∧
    (decide_inclusion (initConfig out cap igf igd vb sn) f t).1.reason = reason_ignored ∧
    contentBlockFor f (decide_inclusion (initConfig out cap igf igd vb sn) f t).1 = none := by
  have hfiles : (initConfig out cap igf igd vb sn).ignore_files
      = sn :: out :: listOrElse igf [] := by
    simp [initConfig, hsn]
  have hmo : out ∈ (initConfig out cap igf igd vb sn).ignore_files := by
    rw [hfiles]; simp
  have hms : sn ∈ (initConfig out cap igf igd vb sn).ignore_files := by
    rw [hfiles]; simp
  have hig : should_ignore (initConfig out cap igf igd vb sn) f.path = true := by
    unfold should_ignore
    have hmem : pathName f.path ∈ (initConfig out cap igf igd vb sn).ignore_files := by
      rcases hname with h | h
      · rw [h]; exact hmo
      · rw [h]; exact hms
    simp [hmem]
  refine ⟨hmo, hms, ?_, ?_, ?_⟩ <;> simp [decide_inclusion, hig, contentBlockFor]

/-- Example discovered file whose base name is the default output path. -/
def exOutFile : SrcFile :=
  { path := ["project_context.txt"], size := 3, suffixLower := ".txt", mime := none,
    read := some ([97], "a") }

/-- Witness for `output_and_script_ignored`: under the default
configuration, a discovered file named `project_context.txt` is excluded
as ignored by name. -/
theorem output_and_script_ignored_witness :
    (decide_inclusion (initConfig "project_context.txt" 1048576 none none false "script4.py")
      exOutFile 0).1.reason = reason_ignored :=
  (output_and_script_ignored "project_context.txt" 1048576 none none false "script4.py"
    (by decide) exOutFile 0 (Or.inl (by decide))).2.2.2.1

/-- A record with `included = false` produces no content block. -/
lemma contentBlockFor_none (f : SrcFile) (r : FileRecord) (h : r.included = false) :
    contentBlockFor f r = none := by
  simp [contentBlockFor, h]

/-- An included record of a readable file produces exactly the labeled
block of step 4. -/
lemma contentBlockFor_some (f : SrcFile) (r : FileRecord) (hr : r.included = true)
    (chunk : List Nat) (text : String) (hread : f.read = some (chunk, text)) :
    contentBlockFor f r
      = some ("// File: " ++ pathStr f.path ++ "\n" ++ separator_line ++ "\n" ++ text ++ "\n\n") := by
  simp [contentBlockFor, hr, hread]

/-- Every record produced by a decision run is the output of
`decide_inclusion` on its paired file at some running total. -/
lemma mem_runDecisions (cfg : Config) (fs : List SrcFile) :
    ∀ t f r, (f, r) ∈ (runDecisions cfg fs t).1 →
      ∃ t0, r = (decide_inclusion cfg f t0).1 := by
  induction fs with
  | nil => intro t f r h; simp [runDecisions] at h
  | cons g gs ih =>
    intro t f r h
    simp only [runDecisions, List.mem_cons] at h
    rcases h with h | h
    · have hf : f = g := congrArg Prod.fst h
      have hr : r = (decide_inclusion cfg g t).1 := congrArg Prod.snd h
      exact ⟨t, by rw [hr, hf]⟩
    · exact ih _ f r h

/-- No block in a run over pairs whose paths all differ from `p` is keyed
by `p`. -/
lemma blockCount_not_mem (p : List String) :
    ∀ pairs : List (SrcFile × FileRecord), (∀ q ∈ pairs, q.1.path ≠ p) →
      (includedBlocks pairs).countP (fun b => b.1 == p) = 0 := by
  intro pairs
  induction pairs with
  | nil => intro h; simp [includedBlocks]
  | cons q rest ih =>
    intro h
    have hq : q.1.path ≠ p := h q (List.mem_cons_self q rest)
    have hrest : ∀ x ∈ rest, x.1.path ≠ p := fun x hx => h x (List.mem_cons_of_mem q hx)
    simp only [includedBlocks, List.filterMap_cons]
    cases hb : contentBlockFor q.1 q.2 with
    | none => simpa [includedBlocks] using ih hrest
    | some b =>
      have hbeq : ((q.1.path == p) : Bool) = false := by
        simpa using hq
      simp only [Option.map_some', List.countP_cons, hbeq]
      simpa [includedBlocks] using ih hrest

/-- The content section holds exactly one block keyed by the path of a
file whose record is included, and none for an excluded record, provided
the block for the included record exists and the scanned paths are
pairwise distinct. -/
lemma blockCount_of_mem :
    ∀ (pairs : List (SrcFile × FileRecord)) (f : SrcFile) (r : FileRecord),
      (f, r) ∈ pairs → (pairs.map (fun q => q.1.path)).Nodup →
      (r.included = true → ∃ b, contentBlockFor f r = some b) →
      (includedBlocks pairs).countP (fun b => b.1 == f.path)
        = if r.included = true then 1 else 0 := by
  intro pairs
  induction pairs with
  | nil => intro f r h; simp at h
  | cons q rest ih =>
    intro f r hmem hnd hblock
    simp only [List.map_cons, List.nodup_cons] at hnd
    obtain ⟨hq_nin, hnd'⟩ := hnd
    rcases List.mem_cons.mp hmem with heq | hmem'
    · obtain ⟨qf, qr⟩ := q
      have hf : f = qf := congrArg Prod.fst heq
      have hr : r = qr := congrArg Prod.snd heq
      subst hf
      subst hr
      have hrest0 : ∀ x ∈ rest, x.1.path ≠ f.path := by
        intro x hx hc
        exact hq_nin (hc ▸ List.mem_map_of_mem (fun q => q.1.path) hx)
      simp only [includedBlocks, List.filterMap_cons]
      cases hb : contentBlockFor f r with
      | none =>
        have hinc : r.included = false := by
          cases hri : r.included
          · rfl
          · exfalso
            obtain ⟨b, hb2⟩ := hblock hri
            rw [hb] at hb2
            exact Option.noConfusion hb2
        rw [hinc]
        simpa [includedBlocks] using blockCount_not_mem f.path rest hrest0
      | some b =>
        have hinc : r.included = true := by
          cases hri : r.included
          · exfalso
            rw [contentBlockFor_none f r hri] at hb
            exact Option.noConfusion hb
          · rfl
        rw [hinc]
        have hz := blockCount_not_mem f.path rest hrest0
        simp only [Option.map_some', List.countP_cons]
        simp only [includedBlocks] at hz
        simp [hz]
    · have hqne : q.1.path ≠ f.path := by
        intro hc
        exact hq_nin (hc ▸ List.mem_map_of_mem (fun q => q.1.path) hmem')
      simp only [includedBlocks, List.filterMap_cons]
      cases hb : contentBlockFor q.1 q.2 with
      | none =>
        simpa [includedBlocks] using ih f r hmem' hnd' hblock
      | some b =>
        have hbeq : ((q.1.path == f.path) : Bool) = false := by
          simpa using hqne
        simp only [Option.map_some', List.countP_cons, hbeq]
        simpa [includedBlocks] using ih f r hmem' hnd' hblock

/-- A budget-exclusion status suffix is never the included suffix,
whatever the configured limit. -/
lemma reason_budget_ne_included (B : Nat) :
    "[" ++ reason_budget B ++ "]" ≠ "[Included]" := by
  intro h
  have hlen := congrArg String.length h
  unfold reason_budget at hlen
  simp only [String.length_append] at hlen
  have h1 : ("[" : String).length = 1 := rfl
  have h2 : ("]" : String).length = 1 := rfl
  have h3 : (" bytes limit" : String).length = 12 := rfl
  have h4 : ("[Included]" : String).length = 10 := rfl
  rw [h1, h2, h3, h4] at hlen
  omega

/-- A record produced by `decide_inclusion` renders the `[Included]`
status suffix exactly when it is included: each of the three exclusion
reasons yields a different suffix. -/
lemma status_str_eq_iff (cfg : Config) (f : SrcFile) (t : Nat) :
    status_str (decide_inclusion cfg f t).1 = "[Included]" ↔
      (decide_inclusion cfg f t).1.included = true := by
  unfold decide_inclusion
  split
  · simp only [status_str]
    decide
  · split
    · simp only [status_str]
      decide
    · split
      · constructor
        · intro h
          exfalso
          refine reason_budget_ne_included cfg.max_total_combined_size ?_
          simpa [status_str] using h
        · intro h
          simp at h
      · simp [status_str]

/-- Claim C2: in every scan, an included record corresponds to exactly one
content block — the labeled block read from its file — and an excluded
record to none; a file's tree line carries the `[Included]` suffix iff its
record is included; counting blocks in the rendered content section
requires the scanned paths to be pairwise distinct, which `rglob` always
delivers. -/
theorem included_iff_content_block (cfg : Config) (files : List SrcFile)
    (f : SrcFile) (r : FileRecord)
    (hmem : (f, r) ∈ (runDecisions cfg (sortPaths files) 0).1) :
    (r.included = true → ∃ chunk text, f.read = some (chunk, text) ∧
        contentBlockFor f r
          = some ("// File: " ++ pathStr f.path ++ "\n" ++ separator_line ++ "\n"
              ++ text ++ "\n\n"))
  ∧ (r.included = false → contentBlockFor f r = none)
  ∧ (status_str r = "[Included]" ↔ r.included = true)
  ∧ (((runDecisions cfg (sortPaths files) 0).1.map (fun q => q.1.path)).Nodup →
      (includedBlocks (runDecisions cfg (sortPaths files) 0).1).countP
          (fun b => b.1 == f.path)
        = if r.included = true then 1 else 0) := by
  obtain ⟨t0, hr0⟩ := mem_runDecisions cfg (sortPaths files) 0 f r hmem
  refine ⟨?_, ?_, ?_, ?_⟩
  · intro hinc
    have htxt := included_is_text cfg f t0 (hr0 ▸ hinc)
    obtain ⟨c, s, hread⟩ := is_text_read_some f htxt
    exact ⟨c, s, hread, contentBlockFor_some f r hinc c s hread⟩
  · intro hninc
    exact contentBlockFor_none f r hninc
  · rw [hr0]
    exact status_str_eq_iff cfg f t0
  · intro hnd
    refine blockCount_of_mem (runDecisions cfg (sortPaths files) 0).1 f r hmem hnd ?_
    intro hinc
    have htxt := included_is_text cfg f t0 (hr0 ▸ hinc)
    obtain ⟨c, s, hread⟩ := is_text_read_some f htxt
    exact ⟨_, contentBlockFor_some f r hinc c s hread⟩

/-- Witness for `included_iff_content_block`: the one-file example scan
has exactly one block keyed by the included file's path. -/
theorem included_iff_content_block_witness :
    (includedBlocks (runDecisions exCfg (sortPaths [exFileA]) 0).1).countP
      (fun b => b.1 == exFileA.path) = 1 := by
  have h := (included_iff_content_block exCfg [exFileA] exFileA exRecA (by decide)).2.2.2
    (by decide)
  simpa [exRecA] using h
